import Mathlib

/-!
Verification development for the server-node diabetes prediction pipeline.

The definitions below are a shallow embedding of the JavaScript source:
`parsePatientData`, `getRiskLevel`, the model-evaluation (aggregation) loops,
`sendEmailNotification` and the `predict` controller flow from
`src/Controller/appController.js`, together with the retrying
`callPythonService` from `src/Service/appService.js` (the axios-retry
revision).  JavaScript dynamic values are modelled by the inductive `JSVal`;
number semantics use rationals, with NaN made explicit.
-/

/-- Model of a JavaScript runtime value as it appears in this code base:
`undefined` is `undefined`, `nan` is the number `NaN`, `num q` a (finite) number,
`str s` a string and `bool b` a boolean.  (`null` does not occur in the
data flows modelled here.) -/
inductive JSVal where
  | undefined
  | nan
  | num (q : ℚ)
  | str (s : String)
  | bool (b : Bool)
deriving DecidableEq

/-- Numeric value of a list of decimal digit characters. -/
def digitsToNat (ds : List Char) : ℕ :=
  ds.foldl (fun a c => 10 * a + (c.toNat - 48)) 0

/-- Split a character list into its longest prefix of decimal digits and the
rest. -/
def takeDigits : List Char → (List Char × List Char)
  | [] => ([], [])
  | c :: cs =>
    if c.isDigit then
      let p := takeDigits cs
      (c :: p.1, p.2)
    else ([], c :: cs)

/-- Parse an unsigned decimal literal (`digits`, `digits.digits`, `digits.`
or `.digits`) from the front of a character list, returning its value and the
unconsumed remainder; `none` if no digit is found where one is required.
Mirrors the numeric grammar the JavaScript code relies on (no exponents or
hex literals occur in the modelled data). -/
def parseUnsigned (cs : List Char) : Option (ℚ × List Char) :=
  let ip := takeDigits cs
  match ip.2 with
  | '.' :: rest2 =>
    let fp := takeDigits rest2
    if ip.1.isEmpty && fp.1.isEmpty then none
    else some ((digitsToNat ip.1 : ℚ) + (digitsToNat fp.1 : ℚ) / (10 ^ fp.1.length), fp.2)
  | _ => if ip.1.isEmpty then none else some ((digitsToNat ip.1 : ℚ), ip.2)

/-- Parse an optionally signed decimal literal from the front of a character
list. -/
def parseSigned : List Char → Option (ℚ × List Char)
  | '-' :: cs => (parseUnsigned cs).map (fun p => (-p.1, p.2))
  | '+' :: cs => parseUnsigned cs
  | cs => parseUnsigned cs

/-- Trim whitespace from both ends of a character list. -/
def trimList (cs : List Char) : List Char :=
  ((cs.dropWhile Char.isWhitespace).reverse.dropWhile Char.isWhitespace).reverse

/-- JavaScript `Number(string)` coercion (restricted to the forms exercised
by this code base): trim whitespace, the empty string is `0`, otherwise the
whole trimmed string must be a signed decimal literal; anything else is NaN
(`none`). -/
def strToNumQ (s : String) : Option ℚ :=
  let t := trimList s.data
  if t = [] then some 0
  else
    match parseSigned t with
    | some (q, []) => some q
    | _ => none

/-- Whether the first list is a prefix of the second. -/
def isPrefixList : List Char → List Char → Bool
  | [], _ => true
  | _ :: _, [] => false
  | a :: as, b :: bs => a == b && isPrefixList as bs

/-- Whether the first list occurs as a contiguous sublist of the second. -/
def containsSub (needle : List Char) : List Char → Bool
  | [] => isPrefixList needle []
  | c :: cs => isPrefixList needle (c :: cs) || containsSub needle cs

/-- JavaScript `parseFloat(string)`: skip leading whitespace, read the
longest signed decimal prefix, ignore trailing garbage; NaN (`none`) if no
numeric prefix exists — in particular `parseFloat("")` is NaN. -/
def parseFloatQ (s : String) : Option ℚ :=
  match parseSigned (s.data.dropWhile Char.isWhitespace) with
  | some (q, _) => some q
  | none => none

/-- JavaScript `parseInt(string, 10)`: skip leading whitespace, optional
sign, then the longest digit prefix; NaN (`none`) if no digit is found. -/
def parseIntQ (s : String) : Option ℚ :=
  let cs := s.data.dropWhile Char.isWhitespace
  match cs with
  | '-' :: r =>
    let ds := takeDigits r
    if ds.1.isEmpty then none else some (-(digitsToNat ds.1 : ℚ))
  | '+' :: r =>
    let ds := takeDigits r
    if ds.1.isEmpty then none else some ((digitsToNat ds.1 : ℚ))
  | r =>
    let ds := takeDigits r
    if ds.1.isEmpty then none else some ((digitsToNat ds.1 : ℚ))

/-- JavaScript `ToNumber` coercion of a value; `none` is NaN. -/
def toNumQ : JSVal → Option ℚ
  | .undefined => none
  | .nan => none
  | .num q => some q
  | .str s => strToNumQ s
  | .bool b => some (if b then 1 else 0)

/-- JavaScript global `isNaN(v)`: coerce with `Number` and test for NaN. -/
def jsIsNaN (v : JSVal) : Bool :=
  match toNumQ v with
  | none => true
  | some _ => false

/-- Truncation of a rational toward zero, as JavaScript `parseInt` applied
to a number produces. -/
def truncQ (q : ℚ) : ℚ :=
  if 0 ≤ q then (⌊q⌋ : ℚ) else -(⌊-q⌋ : ℚ)

/-- JavaScript `parseFloat(v)` on an arbitrary value: numbers pass through,
strings are parsed, everything else (including `undefined`, booleans and
NaN) is NaN. -/
def jsParseFloat : JSVal → Option ℚ
  | .num q => some q
  | .str s => parseFloatQ s
  | _ => none

/-- JavaScript `parseInt(v, 10)` on an arbitrary value. -/
def jsParseInt : JSVal → Option ℚ
  | .num q => some (truncQ q)
  | .str s => parseIntQ s
  | _ => none

/-- The `x || 0` fallback applied by `parsePatientData` to parse results:
NaN (and 0 itself) become 0. -/
def or0 (o : Option ℚ) : ℚ := o.getD 0

/-- JavaScript truthiness of a value. -/
def truthy : JSVal → Bool
  | .undefined => false
  | .nan => false
  | .num q => decide (q ≠ 0)
  | .str s => decide (s ≠ "")
  | .bool b => b

/-- JavaScript `a || b`. -/
def jsOr (a b : JSVal) : JSVal := if truthy a then a else b

/-- JavaScript `a ?? b` (nullish coalescing; `undefined` selects `b`). -/
def jsNullish (a b : JSVal) : JSVal :=
  match a with
  | .undefined => b
  | v => v

/-- JavaScript `a < b`: string-to-string comparison is lexicographic,
otherwise both operands are coerced with `ToNumber` and any NaN makes the
comparison false. -/
def jsLtB (a b : JSVal) : Bool :=
  match a, b with
  | .str x, .str y => decide (x < y)
  | _, _ =>
    match toNumQ a, toNumQ b with
    | some x, some y => decide (x < y)
    | _, _ => false

/-- JavaScript `a > b`, by the same rules as `jsLtB`. -/
def jsGtB (a b : JSVal) : Bool :=
  match a, b with
  | .str x, .str y => decide (y < x)
  | _, _ =>
    match toNumQ a, toNumQ b with
    | some x, some y => decide (y < x)
    | _, _ => false

/-- Risk tier and recommendation, the return shape of `getRiskLevel`. -/
structure RiskAssessment where
  riskLevel : String
  recommendation : String
deriving DecidableEq

/-- The Low band result of `getRiskLevel`. -/
def lowRisk : RiskAssessment :=
  ⟨"Low", "Maintain a healthy lifestyle and regular checkups."⟩

/-- The Moderate band result of `getRiskLevel`. -/
def moderateRisk : RiskAssessment :=
  ⟨"Moderate", "Monitor health regularly and consider lifestyle improvements like diet and exercise."⟩

/-- The High band result of `getRiskLevel`. -/
def highRisk : RiskAssessment :=
  ⟨"High", "Consult a doctor and undergo further medical checkups."⟩

/-- The Critical band result of `getRiskLevel`. -/
def criticalRisk : RiskAssessment :=
  ⟨"Critical", "Immediate medical consultation is required."⟩

/-- `getRiskLevel` from `src/Controller/appController.js` lines 41-51:
three chained `<` comparisons against 40, 70 and 90, with the final `else`
returning the Critical assessment. -/
def getRiskLevel (precentage : JSVal) : RiskAssessment :=
  if jsLtB precentage (.num 40) then lowRisk
  else if jsLtB precentage (.num 70) then moderateRisk
  else if jsLtB precentage (.num 90) then highRisk
  else criticalRisk

/-- One named model entry of the scoring-service response as the primary
`predict` revision reads it: the `precentage` and `prediction` properties,
each of which may be any JavaScript value (`JSVal.undefined` when absent). -/
structure ModelData where
  precentage : JSVal
  prediction : JSVal
deriving DecidableEq

/-- The running best of the model-evaluation loop: `bestModel`,
`highestPrecentage` and `finalPrediction` from
`src/Controller/appController.js` lines 124-134. -/
structure AggregatedDecision where
  bestModel : String
  precentage : JSVal
  prediction : JSVal
deriving DecidableEq

/-- One iteration of the `forEach` loop in `predict` (appController.js
lines 128-134): replace the running best exactly when the entry has a
strictly greater `precentage` under JavaScript `>`. -/
def evalStep (acc : AggregatedDecision) (e : String × ModelData) : AggregatedDecision :=
  if jsGtB e.2.precentage acc.precentage then ⟨e.1, e.2.precentage, e.2.prediction⟩ else acc

/-- The model-evaluation step of the primary `predict` revision
(appController.js lines 124-134).  The response mapping is the list of its
entries in insertion order.  On an empty mapping `Object.keys(...)[0]` is
`undefined` and reading `.precentage` of `undefined` throws a TypeError,
modelled as the error case; otherwise the loop starts from the first entry
and folds over all entries. -/
def evaluateModels : List (String × ModelData) → Except String AggregatedDecision
  | [] => .error "Cannot read properties of undefined (reading precentage)"
  | e :: rest => .ok ((e :: rest).foldl evalStep ⟨e.1, e.2.precentage, e.2.prediction⟩)

/-- One named model entry as the fallback-chain `predict` revision
(appController.js lines 417-432) reads it: both spellings of the confidence
and of the decision field. -/
structure ModelDataFB where
  precentage : JSVal
  percentage : JSVal
  prediction : JSVal
  Prediction : JSVal
deriving DecidableEq

/-- One iteration of the `forEach` loop of the fallback-chain revision
(appController.js lines 423-432): `current` is
`precentage ?? percentage` (with no `?? 0` inside the loop), and on a
strictly greater `current` the decision is adopted as
`prediction ?? Prediction` (with no `?? false` inside the loop). -/
def evalStepFB (acc : AggregatedDecision) (e : String × ModelDataFB) : AggregatedDecision :=
  let current := jsNullish e.2.precentage e.2.percentage
  if jsGtB current acc.precentage then
    ⟨e.1, current, jsNullish e.2.prediction e.2.Prediction⟩
  else acc

/-- The model-evaluation step of the fallback-chain `predict` revision
(appController.js lines 417-432): the initial best is
`precentage ?? percentage ?? 0` and `prediction ?? Prediction ?? false` of
the first entry, then the loop of `evalStepFB` runs over all entries. -/
def evaluateModelsFB : List (String × ModelDataFB) → Except String AggregatedDecision
  | [] => .error "Cannot read properties of undefined (reading precentage)"
  | e :: rest =>
    .ok ((e :: rest).foldl evalStepFB
      ⟨e.1, jsNullish (jsNullish e.2.precentage e.2.percentage) (.num 0),
        jsNullish (jsNullish e.2.prediction e.2.Prediction) (.bool false)⟩)

/-- JavaScript `typeof v === "number"`; note `typeof NaN` is `"number"`. -/
def isNumberType : JSVal → Bool
  | .num _ => true
  | .nan => true
  | _ => false

/-- Test for `undefined`. -/
def isUndefined : JSVal → Bool
  | .undefined => true
  | _ => false

/-- The per-model validation condition of the validating `predict` revision
(`src/unnamed/part_001` lines 125-132): the entry is malformed when
`typeof modelData.precentage !== "number"` or
`modelData.prediction === undefined`. -/
def badModelB (d : ModelData) : Bool :=
  !(isNumberType d.precentage) || isUndefined d.prediction

/-- The validating model-evaluation loop of `src/unnamed/part_001` lines
121-142.  The running best starts as `bestModel = null`,
`highestPercentage = -Infinity` (modelled by `none`); each entry is first
validated (throwing a malformed-data error naming the model) and then
compared with `precentage > highestPercentage`: any real number exceeds
`-Infinity`, while a NaN `precentage` (which passes the `typeof` check)
never wins a comparison. -/
def evalValidLoop : Option (String × ℚ × JSVal) → List (String × ModelData) →
    Except String (Option (String × ℚ × JSVal))
  | best, [] => .ok best
  | best, e :: rest =>
    if badModelB e.2 then
      .error ("Malformed prediction data from model: " ++ e.1)
    else
      match e.2.precentage with
      | .num q =>
        match best with
        | none => evalValidLoop (some (e.1, q, e.2.prediction)) rest
        | some b =>
          if b.2.1 < q then evalValidLoop (some (e.1, q, e.2.prediction)) rest
          else evalValidLoop (some b) rest
      | _ => evalValidLoop best rest

/-- The validating model-evaluation step of `src/unnamed/part_001` lines
118-146: run the loop from the null state, and if no model was ever
adopted throw `No valid prediction models found`. -/
def evaluateModelsValidated (resp : List (String × ModelData)) :
    Except String AggregatedDecision :=
  match evalValidLoop none resp with
  | .error e => .error e
  | .ok none => .error "No valid prediction models found"
  | .ok (some b) => .ok ⟨b.1, .num b.2.1, b.2.2⟩

/-- Raw request body fields consumed by `parsePatientData`
(appController.js lines 12-38); a missing property is `JSVal.undefined`. -/
structure RawPatient where
  age : JSVal
  bmi : JSVal
  insulin : JSVal
  Pregnancies : JSVal
  Glucose : JSVal
  BloodPressure : JSVal
  SkinThickness : JSVal
  DiabetesPedigreeFunction : JSVal
  name : JSVal
deriving DecidableEq

/-- Property lookup used by the `fieldsToValidate` loop of
`parsePatientData`. -/
def getField (p : RawPatient) : String → JSVal
  | "age" => p.age
  | "bmi" => p.bmi
  | "insulin" => p.insulin
  | "Pregnancies" => p.Pregnancies
  | "Glucose" => p.Glucose
  | "BloodPressure" => p.BloodPressure
  | "SkinThickness" => p.SkinThickness
  | "DiabetesPedigreeFunction" => p.DiabetesPedigreeFunction
  | "name" => p.name
  | _ => .undefined

/-- The `fieldsToValidate` array of `parsePatientData`, in source order. -/
def fieldsToValidate : List String :=
  ["age", "bmi", "insulin", "Pregnancies", "Glucose",
   "BloodPressure", "SkinThickness", "DiabetesPedigreeFunction", "name"]

/-- The loop condition of `parsePatientData` (appController.js line 19):
`(patientData[field] === undefined || isNaN(patientData[field])) &&
field !== "name"`. -/
def badFieldB (p : RawPatient) (f : String) : Bool :=
  (isUndefined (getField p f) || jsIsNaN (getField p f)) && !(f == "name")

/-- The validation loop of `parsePatientData` (appController.js lines
18-22): iterate the fields in order and throw at the first offending
field. -/
def validateFields (p : RawPatient) : List String → Except String Unit
  | [] => .ok ()
  | f :: rest =>
    if badFieldB p f then .error ("Invalid or missing value for field: " ++ f)
    else validateFields p rest

/-- The record built by `parsePatientData` on success (appController.js
lines 24-37); `userId` is omitted as the controller overwrites it. -/
structure ParsedPatient where
  name : JSVal
  Age : ℚ
  BMI : ℚ
  Insulin : ℚ
  Pregnancies : ℚ
  Glucose : ℚ
  BloodPressure : ℚ
  SkinThickness : ℚ
  DiabetesPedigreeFunction : ℚ
  prediction : Bool
  precentage : ℚ
deriving DecidableEq

/-- The success value of `parsePatientData`: each numeric field is
`parseInt`/`parseFloat` of the raw value with the `|| 0` fallback, and
`name` is `patientData.name || "Unknown"`. -/
def mkParsed (p : RawPatient) : ParsedPatient where
  name := jsOr p.name (.str "Unknown")
  Age := or0 (jsParseInt p.age)
  BMI := or0 (jsParseFloat p.bmi)
  Insulin := or0 (jsParseFloat p.insulin)
  Pregnancies := or0 (jsParseInt p.Pregnancies)
  Glucose := or0 (jsParseFloat p.Glucose)
  BloodPressure := or0 (jsParseFloat p.BloodPressure)
  SkinThickness := or0 (jsParseFloat p.SkinThickness)
  DiabetesPedigreeFunction := or0 (jsParseFloat p.DiabetesPedigreeFunction)
  prediction := false
  precentage := 0

/-- `parsePatientData` from appController.js lines 12-38: run the
validation loop, then build the parsed record. -/
def parsePatientData (p : RawPatient) : Except String ParsedPatient :=
  match validateFields p fieldsToValidate with
  | .error e => .error e
  | .ok _ => .ok (mkParsed p)

/-- Outcome of one HTTP attempt against the scoring service: a successful
JSON response (the mapping of model names to model data), a response with a
non-2xx status code, a network error with no response, or an
`ECONNABORTED` request timeout. -/
inductive AttemptOutcome where
  | ok (resp : List (String × ModelData))
  | httpStatus (code : ℕ)
  | networkError
  | timeout

/-- The `retryCondition` configured on axios in
`src/Service/appService.js` lines 431-437: network errors, `ECONNABORTED`
and any response status of 500 or above are retryable. -/
def isRetryable : AttemptOutcome → Bool
  | .ok _ => false
  | .httpStatus code => decide (500 ≤ code)
  | .networkError => true
  | .timeout => true

/-- The axios-retry loop (`retries: 3` in appService.js lines 428-438):
`f i` is the outcome of attempt number `i`; the second argument is the
remaining retry budget.  A successful attempt returns immediately; a
retryable failure consumes one retry; a non-retryable failure (or an
exhausted budget) surfaces as is. -/
def retryLoop (f : ℕ → AttemptOutcome) (i : ℕ) : ℕ → AttemptOutcome
  | 0 => f i
  | n + 1 =>
    match f i with
    | .ok r => .ok r
    | e => if isRetryable e then retryLoop f (i + 1) n else e

/-- `callPythonService` of the axios-retry revision (appService.js lines
537-573): run the (retrying) POST; any remaining failure is caught and
rethrown as the single service-unavailable error. -/
def callPythonService (f : ℕ → AttemptOutcome) :
    Except String (List (String × ModelData)) :=
  match retryLoop f 0 3 with
  | .ok r => .ok r
  | _ => .error "Prediction service unavailable. Please try again later."

/-- Record-store outcome oracle for `appService.createPatient`: the prisma
create either succeeds or throws, rethrown as the fixed message
(appService.js lines 62-81). -/
def createPatient (ok : Bool) : Except String Unit :=
  if ok then .ok () else .error "Failed to create patient."

/-- Record-store outcome oracle for `prisma.notification.create` in
`predict` (appController.js lines 152-158): the create either succeeds or
throws. -/
def createNotification (ok : Bool) : Except String Unit :=
  if ok then .ok () else .error "Notification create failed"

/-- Transport outcome oracle for `transporter.sendMail`
(appController.js line 72): the send either succeeds or throws. -/
def sendMail (ok : Bool) : Except String Unit :=
  if ok then .ok () else .error "Error sending email"

/-- `sendEmailNotification` from appController.js lines 63-76: the
`sendMail` call runs inside try/catch, and a failure is only logged, never
rethrown, so the function always returns normally. -/
def sendEmailNotification (ok : Bool) : Except String Unit :=
  match sendMail ok with
  | .ok _ => .ok ()
  | .error _ => .ok ()

/-- The external collaborator outcomes a single `predict` request can
observe: the per-attempt scoring results and the success of each of the
patient write, the notification write and the email dispatch. -/
structure PredictEnv where
  attempts : ℕ → AttemptOutcome
  patientCreateOk : Bool
  notificationCreateOk : Bool
  emailOk : Bool

/-- Which durable records exist after a `predict` request. -/
structure Writes where
  patient : Bool
  notification : Bool
deriving DecidableEq

/-- The success payload of `predict` (appController.js lines 168-174),
restricted to the prediction fields (the echoed notification row is
determined by the same data). -/
structure SuccessResponse where
  prediction : JSVal
  precentage : JSVal
  riskLevel : String
  recommendation : String
deriving DecidableEq

/-- The post-validation `predict` flow of the primary revision
(appController.js lines 112-188): call the scoring service, evaluate the
models, classify the risk, create the patient row, create the notification
row, send the email, return the 200 payload.  Any thrown error reaches the
surrounding catch and yields the error response; the pair records which
durable rows exist at that point. -/
def predict (env : PredictEnv) : Except String SuccessResponse × Writes :=
  match callPythonService env.attempts with
  | .error e => (.error e, ⟨false, false⟩)
  | .ok resp =>
    match evaluateModels resp with
    | .error e => (.error e, ⟨false, false⟩)
    | .ok agg =>
      let risk := getRiskLevel agg.precentage
      match createPatient env.patientCreateOk with
      | .error e => (.error e, ⟨false, false⟩)
      | .ok _ =>
        match createNotification env.notificationCreateOk with
        | .error e => (.error e, ⟨true, false⟩)
        | .ok _ =>
          match sendEmailNotification env.emailOk with
          | .error e => (.error e, ⟨true, true⟩)
          | .ok _ =>
            (.ok ⟨agg.prediction, agg.precentage, risk.riskLevel, risk.recommendation⟩,
              ⟨true, true⟩)

/-- Injection of a well-formed named outcome (name, numeric confidence,
boolean decision) into the raw response shape read by `evaluateModels`. -/
def toModel (e : String × ℚ × Bool) : String × ModelData :=
  (e.1, ⟨.num e.2.1, .bool e.2.2⟩)

/-- The raw aggregation state corresponding to a well-formed outcome. -/
def toAgg (e : String × ℚ × Bool) : AggregatedDecision :=
  ⟨e.1, .num e.2.1, .bool e.2.2⟩

/-- Maximum of an initial confidence and the confidences of a list of
well-formed outcomes. -/
def maxConfAux : ℚ → List (String × ℚ × Bool) → ℚ
  | a, [] => a
  | a, e :: r => maxConfAux (max a e.2.1) r

/-- Maximum confidence of a list of well-formed outcomes (0 for the empty
list, which never occurs in the statements using it). -/
def maxConf : List (String × ℚ × Bool) → ℚ
  | [] => 0
  | e :: r => maxConfAux e.2.1 r

/-- Specification-level image of the `forEach` loop on well-formed
outcomes: keep the running best, replacing it exactly on a strictly larger
confidence. -/
def loopSpec : (String × ℚ × Bool) → List (String × ℚ × Bool) → String × ℚ × Bool
  | acc, [] => acc
  | acc, e :: r => loopSpec (if acc.2.1 < e.2.1 then e else acc) r

/-- Concrete request body with two invalid measurement fields (age and bmi
both absent) and every other field a number. -/
def rawBoth : RawPatient :=
  ⟨.undefined, .undefined, .num 1, .num 2, .num 3, .num 4, .num 5, .num 6, .str "Bob"⟩

/-- Concrete request body whose insulin field is present but is the empty
string, with every other field a number. -/
def rawEmptyInsulin : RawPatient :=
  ⟨.num 30, .num 25, .str "", .num 2, .num 100, .num 80, .num 20, .num 1, .str "Bob"⟩

/-- Concrete well-formed single-model scoring response. -/
def respOne : List (String × ModelData) := [("model1", ⟨.num 85, .bool true⟩)]

/-- Environment where everything succeeds except the notification write. -/
def envNotifFail : PredictEnv := ⟨fun _ => .ok [("model1", ⟨.num 50, .bool true⟩)], true, false, true⟩

/-- Environment where everything succeeds except the email dispatch. -/
def envEmailFail : PredictEnv := ⟨fun _ => .ok respOne, true, true, false⟩

/-- Environment where the scoring service returns an empty mapping. -/
def envEmptyResp : PredictEnv := ⟨fun _ => .ok [], true, true, true⟩

theorem jsLtB_num_num (x y : ℚ) : jsLtB (.num x) (.num y) = decide (x < y) := rfl

theorem jsGtB_num_num (x y : ℚ) : jsGtB (.num x) (.num y) = decide (y < x) := rfl

theorem find_cons_pos {α : Type} (p : α → Bool) (a : α) (l : List α) (h : p a = true) :
    (a :: l).find? p = some a := by
  simp [List.find?, h]

theorem find_cons_neg {α : Type} (p : α → Bool) (a : α) (l : List α) (h : p a = false) :
    (a :: l).find? p = l.find? p := by
  simp [List.find?, h]

theorem le_maxConfAux (l : List (String × ℚ × Bool)) : ∀ a : ℚ, a ≤ maxConfAux a l := by
  induction l with
  | nil => intro a; simp [maxConfAux]
  | cons e r ih =>
    intro a
    have h1 : a ≤ max a e.2.1 := le_max_left _ _
    simpa [maxConfAux] using h1.trans (ih (max a e.2.1))

theorem mem_le_maxConfAux (l : List (String × ℚ × Bool)) :
    ∀ (a : ℚ) (e : String × ℚ × Bool), e ∈ l → e.2.1 ≤ maxConfAux a l := by
  induction l with
  | nil => intro a e he; cases he
  | cons f r ih =>
    intro a e he
    rcases List.mem_cons.mp he with h | h
    · subst h
      have h1 : e.2.1 ≤ max a e.2.1 := le_max_right _ _
      simpa [maxConfAux] using h1.trans (le_maxConfAux r (max a e.2.1))
    · simpa [maxConfAux] using ih (max a f.2.1) e h

theorem loopSpec_find (l : List (String × ℚ × Bool)) :
    ∀ acc : String × ℚ × Bool,
      ∃ m, (acc :: l).find? (fun e => decide (e.2.1 = maxConfAux acc.2.1 l)) = some m ∧
        loopSpec acc l = m := by
  induction l with
  | nil =>
    intro acc
    refine ⟨acc, ?_, rfl⟩
    simp [maxConfAux, List.find?]
  | cons e r ih =>
    intro acc
    by_cases h : acc.2.1 < e.2.1
    · have hmax : max acc.2.1 e.2.1 = e.2.1 := max_eq_right h.le
      obtain ⟨m, hfind, hloop⟩ := ih e
      have hM : maxConfAux acc.2.1 (e :: r) = maxConfAux e.2.1 r := by
        simp [maxConfAux, hmax]
      refine ⟨m, ?_, ?_⟩
      · rw [hM]
        have hlt : acc.2.1 < maxConfAux e.2.1 r := lt_of_lt_of_le h (le_maxConfAux r _)
        have hne : (fun x : String × ℚ × Bool => decide (x.2.1 = maxConfAux e.2.1 r)) acc
            = false := decide_eq_false hlt.ne
        rw [find_cons_neg (fun x => decide (x.2.1 = maxConfAux e.2.1 r)) acc (e :: r) hne]
        exact hfind
      · have hls : loopSpec acc (e :: r) = loopSpec e r := by simp [loopSpec, h]
        rw [hls]; exact hloop
    · have hmax : max acc.2.1 e.2.1 = acc.2.1 := max_eq_left (not_lt.mp h)
      obtain ⟨m, hfind, hloop⟩ := ih acc
      have hM : maxConfAux acc.2.1 (e :: r) = maxConfAux acc.2.1 r := by
        simp [maxConfAux, hmax]
      refine ⟨m, ?_, ?_⟩
      · rw [hM]
        by_cases hacc : acc.2.1 = maxConfAux acc.2.1 r
        · have hp : (fun x : String × ℚ × Bool => decide (x.2.1 = maxConfAux acc.2.1 r)) acc
              = true := decide_eq_true hacc
          rw [find_cons_pos (fun x => decide (x.2.1 = maxConfAux acc.2.1 r)) acc (e :: r) hp]
          rw [find_cons_pos (fun x => decide (x.2.1 = maxConfAux acc.2.1 r)) acc r hp] at hfind
          exact hfind
        · have hp : (fun x : String × ℚ × Bool => decide (x.2.1 = maxConfAux acc.2.1 r)) acc
              = false := decide_eq_false hacc
          have hple : e.2.1 ≤ acc.2.1 := not_lt.mp h
          have hle : acc.2.1 ≤ maxConfAux acc.2.1 r := le_maxConfAux r _
          have hne : e.2.1 ≠ maxConfAux acc.2.1 r := by
            intro hEq
            have hMle : maxConfAux acc.2.1 r ≤ acc.2.1 := hEq ▸ hple
            exact hacc (le_antisymm hle hMle)
          have hne2 : (fun x : String × ℚ × Bool => decide (x.2.1 = maxConfAux acc.2.1 r)) e
              = false := decide_eq_false hne
          rw [find_cons_neg (fun x => decide (x.2.1 = maxConfAux acc.2.1 r)) acc (e :: r) hp,
            find_cons_neg (fun x => decide (x.2.1 = maxConfAux acc.2.1 r)) e r hne2]
          rw [find_cons_neg (fun x => decide (x.2.1 = maxConfAux acc.2.1 r)) acc r hp] at hfind
          exact hfind
      · have hls : loopSpec acc (e :: r) = loopSpec acc r := by simp [loopSpec, h]
        rw [hls]; exact hloop

theorem foldl_evalStep_toModel (t : List (String × ℚ × Bool)) :
    ∀ acc : String × ℚ × Bool,
      (t.map toModel).foldl evalStep (toAgg acc) = toAgg (loopSpec acc t) := by
  induction t with
  | nil => intro acc; rfl
  | cons e r ih =>
    intro acc
    have hstep : evalStep (toAgg acc) (toModel e) = toAgg (if acc.2.1 < e.2.1 then e else acc) := by
      by_cases h : acc.2.1 < e.2.1
      · simp [evalStep, toModel, toAgg, jsGtB_num_num, h]
      · simp [evalStep, toModel, toAgg, jsGtB_num_num, h]
    simp only [List.map_cons, List.foldl_cons, hstep]
    rw [ih]
    rfl

/-- C1: on a scoring response with at least one named outcome, each with a
numeric confidence and boolean decision, the model-evaluation loop returns
the first-seen entry of maximal confidence, adopting its model name,
confidence and decision; the adopted confidence is the maximum over all
entries, and ties go to the earlier entry. -/
theorem aggregation_selects_max_confidence (l : List (String × ℚ × Bool)) (hne : l ≠ []) :
    ∃ m, l.find? (fun e => decide (e.2.1 = maxConf l)) = some m ∧
      evaluateModels (l.map toModel) = .ok (toAgg m) ∧
      m ∈ l ∧ m.2.1 = maxConf l ∧ ∀ e ∈ l, e.2.1 ≤ m.2.1 := by
  match l, hne with
  | h :: t, _ =>
    obtain ⟨m, hfind, hloop⟩ := loopSpec_find t h
    have hhead : evalStep (toAgg h) (toModel h) = toAgg h := by
      simp [evalStep, toModel, toAgg, jsGtB_num_num]
    have heval : evaluateModels ((h :: t).map toModel) = .ok (toAgg (loopSpec h t)) := by
      calc evaluateModels ((h :: t).map toModel)
          = .ok ((t.map toModel).foldl evalStep (evalStep (toAgg h) (toModel h))) := rfl
        _ = .ok ((t.map toModel).foldl evalStep (toAgg h)) := by rw [hhead]
        _ = .ok (toAgg (loopSpec h t)) := by rw [foldl_evalStep_toModel t h]
    have hps := List.find?_some hfind
    have hm : m.2.1 = maxConfAux h.2.1 t := of_decide_eq_true hps
    refine ⟨m, hfind, ?_, ?_, hm, ?_⟩
    · rw [heval, hloop]
    · exact List.mem_of_find?_eq_some hfind
    · intro e he
      rw [hm]
      rcases List.mem_cons.mp he with h1 | h1
      · subst h1; exact le_maxConfAux t _
      · exact mem_le_maxConfAux t _ _ h1

/-- Witness for C1 at a concrete two-entry response with equal confidences:
the first-seen entry wins the tie. -/
theorem aggregation_selects_max_confidence_witness :
    ∃ m, ([("a", (50 : ℚ), true), ("b", (50 : ℚ), false)]).find?
        (fun e => decide (e.2.1 = maxConf [("a", (50 : ℚ), true), ("b", (50 : ℚ), false)]))
        = some m ∧
      evaluateModels ([("a", (50 : ℚ), true), ("b", (50 : ℚ), false)].map toModel)
        = .ok (toAgg m) ∧
      m ∈ [("a", (50 : ℚ), true), ("b", (50 : ℚ), false)] ∧
      m.2.1 = maxConf [("a", (50 : ℚ), true), ("b", (50 : ℚ), false)] ∧
      ∀ e ∈ [("a", (50 : ℚ), true), ("b", (50 : ℚ), false)], e.2.1 ≤ m.2.1 :=
  aggregation_selects_max_confidence _ (List.cons_ne_nil _ _)

/-- C2: the risk classifier is a pure total function of the confidence with
left-inclusive, right-exclusive bands: below 40 Low, in [40,70) Moderate,
in [70,90) High, and at or above 90 Critical. -/
theorem classify_bands (q : ℚ) :
    (q < 40 → getRiskLevel (.num q) = lowRisk) ∧
    (40 ≤ q → q < 70 → getRiskLevel (.num q) = moderateRisk) ∧
    (70 ≤ q → q < 90 → getRiskLevel (.num q) = highRisk) ∧
    (90 ≤ q → getRiskLevel (.num q) = criticalRisk) := by
  have hq : getRiskLevel (.num q) =
      if q < 40 then lowRisk else if q < 70 then moderateRisk
      else if q < 90 then highRisk else criticalRisk := by
    simp [getRiskLevel, jsLtB_num_num]
  refine ⟨fun h1 => ?_, fun h1 h2 => ?_, fun h1 h2 => ?_, fun h1 => ?_⟩
  · rw [hq, if_pos h1]
  · rw [hq, if_neg (not_lt.mpr h1), if_pos h2]
  · rw [hq, if_neg (not_lt.mpr (by linarith)), if_neg (not_lt.mpr h1), if_pos h2]
  · rw [hq, if_neg (not_lt.mpr (by linarith)), if_neg (not_lt.mpr (by linarith)),
      if_neg (not_lt.mpr h1)]

/-- Witness for C2 at the exact boundary inputs 39.9, 40, 69.9 and 90. -/
theorem classify_bands_witness :
    getRiskLevel (.num (399 / 10)) = lowRisk ∧ getRiskLevel (.num 40) = moderateRisk ∧
      getRiskLevel (.num (699 / 10)) = moderateRisk ∧ getRiskLevel (.num 90) = criticalRisk :=
  ⟨(classify_bands (399 / 10)).1 (by norm_num),
   (classify_bands 40).2.1 (by norm_num) (by norm_num),
   (classify_bands (699 / 10)).2.1 (by norm_num) (by norm_num),
   (classify_bands 90).2.2.2 (by norm_num)⟩

theorem jsLtB_none_left (v : JSVal) (h : toNumQ v = none) (c : ℚ) :
    jsLtB v (.num c) = false := by
  cases v with
  | undefined => rfl
  | nan => rfl
  | num q => simp [toNumQ] at h
  | bool b => simp [toNumQ] at h
  | str s =>
    show (match toNumQ (JSVal.str s), toNumQ (JSVal.num c) with
      | some x, some y => decide (x < y)
      | _, _ => false) = false
    rw [h]

/-- C10: any confidence that is not numerically comparable below the
thresholds — NaN, `undefined`, or an unparsable value, all of which coerce
to NaN so that every `<` comparison is false — lands in the Critical band
with the immediate-consultation recommendation. -/
theorem classify_noncomparable_critical (v : JSVal) (h : toNumQ v = none) :
    getRiskLevel v = criticalRisk := by
  simp [getRiskLevel, jsLtB_none_left v h]

/-- Witness for C10 at NaN and at undefined. -/
theorem classify_noncomparable_critical_witness :
    getRiskLevel .nan = criticalRisk ∧ getRiskLevel .undefined = criticalRisk :=
  ⟨classify_noncomparable_critical .nan rfl, classify_noncomparable_critical .undefined rfl⟩

theorem validateFields_error_of_find (p : RawPatient) :
    ∀ (fs : List String) (f : String), fs.find? (badFieldB p) = some f →
      validateFields p fs = .error ("Invalid or missing value for field: " ++ f) := by
  intro fs
  induction fs with
  | nil => intro f h; simp [List.find?] at h
  | cons g rest ih =>
    intro f h
    by_cases hb : badFieldB p g = true
    · rw [find_cons_pos (badFieldB p) g rest hb] at h
      injection h with h1
      subst h1
      simp [validateFields, hb]
    · have hb2 : badFieldB p g = false := by simpa using hb
      rw [find_cons_neg (badFieldB p) g rest hb2] at h
      have hv : validateFields p (g :: rest) = validateFields p rest := by
        simp [validateFields, hb2]
      rw [hv]
      exact ih f h

theorem validateFields_ok_of_find_none (p : RawPatient) :
    ∀ fs : List String, fs.find? (badFieldB p) = none → validateFields p fs = .ok () := by
  intro fs
  induction fs with
  | nil => intro h; rfl
  | cons g rest ih =>
    intro h
    by_cases hb : badFieldB p g = true
    · rw [find_cons_pos (badFieldB p) g rest hb] at h
      cases h
    · have hb2 : badFieldB p g = false := by simpa using hb
      rw [find_cons_neg (badFieldB p) g rest hb2] at h
      have hv : validateFields p (g :: rest) = validateFields p rest := by
        simp [validateFields, hb2]
      rw [hv]
      exact ih h

/-- C7 counterexample: with both `age` and `bmi` missing, `parsePatientData`
throws a message naming only `age`; the string `bmi` does not occur in the
error, so the error does not name every invalid field. -/
theorem validation_first_field_only_counterexample :
    parsePatientData rawBoth = .error "Invalid or missing value for field: age" ∧
      badFieldB rawBoth "bmi" = true ∧
      containsSub "bmi".data ("Invalid or missing value for field: age").data = false :=
  ⟨rfl, rfl, rfl⟩

/-- C7 amended: on any raw input with at least one invalid required field,
`parsePatientData` fails with a `ValidationError` naming exactly the first
invalid field in the fixed validation order, not every one. -/
theorem validation_names_first_invalid_field (p : RawPatient) (f : String)
    (h : fieldsToValidate.find? (badFieldB p) = some f) :
    parsePatientData p = .error ("Invalid or missing value for field: " ++ f) ∧
      badFieldB p f = true := by
  have he := validateFields_error_of_find p fieldsToValidate f h
  constructor
  · simp [parsePatientData, he]
  · exact List.find?_some h

/-- Witness for the amended C7 at a body missing both age and bmi: the
first field in validation order, age, is the one named. -/
theorem validation_names_first_invalid_field_witness :
    parsePatientData rawBoth = .error ("Invalid or missing value for field: " ++ "age") ∧
      badFieldB rawBoth "age" = true :=
  validation_names_first_invalid_field rawBoth "age" rfl

/-- C9: when the validation gate passes, `parsePatientData` succeeds with
the `|| 0` fallbacks applied; an empty-string field passes the `isNaN`
gate (because `Number("")` is 0), and any field whose `parseFloat` or
`parseInt` result is NaN is silently set to 0. -/
theorem parse_silently_zeroes_unparsable (p : RawPatient)
    (h : fieldsToValidate.find? (badFieldB p) = none) :
    parsePatientData p = .ok (mkParsed p) ∧
      (p.insulin = .str "" → badFieldB p "insulin" = false) ∧
      (jsParseFloat p.insulin = none → (mkParsed p).Insulin = 0) ∧
      (jsParseFloat p.bmi = none → (mkParsed p).BMI = 0) ∧
      (jsParseFloat p.Glucose = none → (mkParsed p).Glucose = 0) ∧
      (jsParseFloat p.BloodPressure = none → (mkParsed p).BloodPressure = 0) ∧
      (jsParseFloat p.SkinThickness = none → (mkParsed p).SkinThickness = 0) ∧
      (jsParseFloat p.DiabetesPedigreeFunction = none →
        (mkParsed p).DiabetesPedigreeFunction = 0) ∧
      (jsParseInt p.age = none → (mkParsed p).Age = 0) ∧
      (jsParseInt p.Pregnancies = none → (mkParsed p).Pregnancies = 0) := by
  have hok := validateFields_ok_of_find_none p fieldsToValidate h
  refine ⟨by simp [parsePatientData, hok], fun hi => ?_, fun hp => ?_, fun hp => ?_,
    fun hp => ?_, fun hp => ?_, fun hp => ?_, fun hp => ?_, fun hp => ?_, fun hp => ?_⟩
  · simp only [badFieldB, getField, hi]
    decide
  all_goals simp [mkParsed, or0, hp]

/-- Witness for C9: a body whose insulin field is the empty string passes
validation and yields an insulin measurement of 0. -/
theorem parse_silently_zeroes_unparsable_witness :
    parsePatientData rawEmptyInsulin = .ok (mkParsed rawEmptyInsulin) ∧
      (rawEmptyInsulin.insulin = .str "" → badFieldB rawEmptyInsulin "insulin" = false) ∧
      (jsParseFloat rawEmptyInsulin.insulin = none → (mkParsed rawEmptyInsulin).Insulin = 0) ∧
      (jsParseFloat rawEmptyInsulin.bmi = none → (mkParsed rawEmptyInsulin).BMI = 0) ∧
      (jsParseFloat rawEmptyInsulin.Glucose = none → (mkParsed rawEmptyInsulin).Glucose = 0) ∧
      (jsParseFloat rawEmptyInsulin.BloodPressure = none →
        (mkParsed rawEmptyInsulin).BloodPressure = 0) ∧
      (jsParseFloat rawEmptyInsulin.SkinThickness = none →
        (mkParsed rawEmptyInsulin).SkinThickness = 0) ∧
      (jsParseFloat rawEmptyInsulin.DiabetesPedigreeFunction = none →
        (mkParsed rawEmptyInsulin).DiabetesPedigreeFunction = 0) ∧
      (jsParseInt rawEmptyInsulin.age = none → (mkParsed rawEmptyInsulin).Age = 0) ∧
      (jsParseInt rawEmptyInsulin.Pregnancies = none →
        (mkParsed rawEmptyInsulin).Pregnancies = 0) :=
  parse_silently_zeroes_unparsable rawEmptyInsulin rfl

/-- C6 counterexample: the fallback-chain revision, given a single model
whose outcome has neither a confidence nor a decision field, silently
defaults them to confidence 0 and decision false and returns successfully
instead of failing with an error naming the model. -/
theorem aggregation_silent_default_counterexample :
    evaluateModelsFB [("m1", ⟨.undefined, .undefined, .undefined, .undefined⟩)]
        = .ok ⟨"m1", .num 0, .bool false⟩ ∧
      ∀ msg, evaluateModelsFB [("m1", ⟨.undefined, .undefined, .undefined, .undefined⟩)] ≠ .error msg := by
  have hok : evaluateModelsFB [("m1", ⟨.undefined, .undefined, .undefined, .undefined⟩)]
      = .ok ⟨"m1", .num 0, .bool false⟩ := rfl
  refine ⟨hok, fun msg hmsg => ?_⟩
  rw [hok] at hmsg
  exact Except.noConfusion hmsg

theorem evalValidLoop_error_of_find :
    ∀ (l : List (String × ModelData)) (best : Option (String × ℚ × JSVal))
      (nm : String) (d : ModelData),
      l.find? (fun e => badModelB e.2) = some (nm, d) →
      evalValidLoop best l = .error ("Malformed prediction data from model: " ++ nm) := by
  intro l
  induction l with
  | nil => intro best nm d h; simp [List.find?] at h
  | cons e rest ih =>
    intro best nm d h
    by_cases hb : badModelB e.2 = true
    · rw [find_cons_pos (fun x => badModelB x.2) e rest hb] at h
      injection h with h1
      have hn : e.1 = nm := by rw [h1]
      simp [evalValidLoop, hb, hn]
    · have hb2 : badModelB e.2 = false := by simpa using hb
      rw [find_cons_neg (fun x => badModelB x.2) e rest hb2] at h
      simp only [evalValidLoop, hb2, Bool.false_eq_true, if_false]
      split
      · split
        · exact ih _ nm d h
        · split
          · exact ih _ nm d h
          · exact ih _ nm d h
      · exact ih _ nm d h

/-- C6 amended: the validating revision of aggregation fails with an error
naming the first model (in iteration order) whose outcome lacks a
number-typed confidence or whose decision field is undefined; the
fallback-chain revision instead silently defaults such fields (see the
counterexample). -/
theorem validating_aggregation_names_first_malformed (resp : List (String × ModelData))
    (nm : String) (d : ModelData)
    (h : resp.find? (fun e => badModelB e.2) = some (nm, d)) :
    evaluateModelsValidated resp = .error ("Malformed prediction data from model: " ++ nm) := by
  have hl := evalValidLoop_error_of_find resp none nm d h
  simp [evaluateModelsValidated, hl]

/-- Witness for the amended C6: a response whose second model lacks its
confidence field is rejected with an error naming that model. -/
theorem validating_aggregation_names_first_malformed_witness :
    evaluateModelsValidated [("good", ⟨.num 50, .bool true⟩), ("bad", ⟨.undefined, .bool false⟩)]
      = .error ("Malformed prediction data from model: " ++ "bad") :=
  validating_aggregation_names_first_malformed _ "bad" ⟨.undefined, .bool false⟩ rfl

/-- C3 counterexample: with a well-formed scoring response, a successful
patient write and a failing notification write, the request errors while
the patient row persists with no notification row — the two records are
not written as an atomic unit. -/
theorem persistence_not_atomic_counterexample :
    (predict envNotifFail).2 = ⟨true, false⟩ ∧
      (predict envNotifFail).2.patient ≠ (predict envNotifFail).2.notification ∧
      (predict envNotifFail).1 = .error "Notification create failed" := by
  refine ⟨rfl, ?_, rfl⟩
  intro hcontra
  have h1 : (predict envNotifFail).2.patient = true := rfl
  have h2 : (predict envNotifFail).2.notification = false := rfl
  rw [h1, h2] at hcontra
  exact Bool.noConfusion hcontra

/-- C3 amended: the patient row and its notification row are written
sequentially, not atomically.  The notification row never exists without
the patient row; after any execution the write state is none, both, or —
exactly when the notification write fails after the patient write
succeeded — patient-only, with the request erroring. -/
theorem persistence_sequential_invariant (env : PredictEnv) :
    (predict env).2 = ⟨false, false⟩ ∨ (predict env).2 = ⟨true, true⟩ ∨
      ((predict env).2 = ⟨true, false⟩ ∧ env.notificationCreateOk = false ∧
        (predict env).1 = .error "Notification create failed") := by
  cases hc : callPythonService env.attempts with
  | error e => left; simp [predict, hc]
  | ok resp =>
    cases he : evaluateModels resp with
    | error e2 => left; simp [predict, hc, he]
    | ok agg =>
      cases hp : env.patientCreateOk with
      | false => left; simp [predict, hc, he, hp, createPatient]
      | true =>
        cases hn : env.notificationCreateOk with
        | false =>
          right; right
          refine ⟨?_, rfl, ?_⟩ <;>
            simp [predict, hc, he, hp, hn, createPatient, createNotification]
        | true =>
          right; left
          cases hm : env.emailOk <;>
            simp [predict, hc, he, hp, hn, hm, createPatient, createNotification,
              sendEmailNotification, sendMail]

/-- C4: after successful scoring, aggregation and persistence, the email
step never raises (its failure is caught inside `sendEmailNotification`),
the pipeline returns the success payload with both rows written, and the
overall result is unchanged by whether the email transport succeeds. -/
theorem notifier_failure_isolated (env : PredictEnv)
    (resp : List (String × ModelData)) (agg : AggregatedDecision)
    (hc : callPythonService env.attempts = .ok resp)
    (he : evaluateModels resp = .ok agg)
    (hp : env.patientCreateOk = true)
    (hn : env.notificationCreateOk = true) :
    sendEmailNotification env.emailOk = .ok () ∧
      predict env =
        (.ok ⟨agg.prediction, agg.precentage, (getRiskLevel agg.precentage).riskLevel,
          (getRiskLevel agg.precentage).recommendation⟩, ⟨true, true⟩) ∧
      ∀ b, predict { env with emailOk := b } = predict env := by
  have hmail : ∀ b, sendEmailNotification b = .ok () := by
    intro b; cases b <;> rfl
  refine ⟨hmail env.emailOk, ?_, ?_⟩
  · simp [predict, hc, he, hp, hn, createPatient, createNotification, hmail]
  · intro b
    simp [predict, hc, he, hp, hn, createPatient, createNotification, hmail]

/-- Witness for C4 with a failing email transport: the request still
succeeds with both rows written. -/
theorem notifier_failure_isolated_witness :
    sendEmailNotification envEmailFail.emailOk = .ok () ∧
      predict envEmailFail =
        (.ok ⟨JSVal.bool true, JSVal.num 85,
          (getRiskLevel (JSVal.num 85)).riskLevel,
          (getRiskLevel (JSVal.num 85)).recommendation⟩, ⟨true, true⟩) ∧
      ∀ b, predict { envEmailFail with emailOk := b } = predict envEmailFail :=
  notifier_failure_isolated envEmailFail respOne ⟨"model1", .num 85, .bool true⟩
    rfl rfl rfl rfl

/-- C5: a scoring response that is an empty mapping makes the
model-evaluation step throw (reading `.precentage` of `undefined`), the
request fails, and neither the patient row nor the notification row is
written. -/
theorem empty_response_no_persistence (env : PredictEnv)
    (h : env.attempts 0 = .ok []) :
    (predict env).1 = .error "Cannot read properties of undefined (reading precentage)" ∧
      (predict env).2 = ⟨false, false⟩ := by
  have hc : callPythonService env.attempts = .ok [] := by
    simp [callPythonService, retryLoop, h]
  constructor <;> simp [predict, hc, evaluateModels]

/-- Witness for C5 at a concrete environment whose scoring call returns an
empty mapping. -/
theorem empty_response_no_persistence_witness :
    (predict envEmptyResp).1
        = .error "Cannot read properties of undefined (reading precentage)" ∧
      (predict envEmptyResp).2 = ⟨false, false⟩ :=
  empty_response_no_persistence envEmptyResp rfl

/-- C8: a pipeline run whose scoring call fails twice with a 503 and
succeeds on the third attempt is identical — in its caller-facing result
and in its writes — to a run whose scoring call succeeds immediately with
the same response. -/
theorem retry_then_success_equals_immediate (resp : List (String × ModelData))
    (p n m : Bool) :
    predict ⟨fun i => if i < 2 then .httpStatus 503 else .ok resp, p, n, m⟩ =
      predict ⟨fun _ => .ok resp, p, n, m⟩ := rfl
